import Mathlib

/-!
Verification of the mintlify-mcp documentation bridge.

This file shallowly embeds the TypeScript sources of the repository:
`src/src/index.ts` (the generic MCP server with a `continue_conversation`
flag) and the alternate variant in `src/unnamed/part_001` (CLI-configurable
server with a locked mode; its generic `ask_docs` takes no continue flag).
Pure functions (`parseStreamedResponse`, request construction) become Lean
functions; the mutable per-project conversation map becomes explicit state
passing; the `fetch` call's outcome is a parameter (success body or HTTP
error status), since the network is outside the program.
-/

/- ===================== Model of JavaScript JSON.parse ===================== -/

/-- The result of a successful `JSON.parse`.  The program only ever checks
`typeof x === "string"` on the result, so for numbers we keep the matched
lexeme rather than a floating-point value; structure of arrays and objects is
kept so that parse success and failure coincide with the JSON grammar. -/
inductive Json where
  | str : String → Json
  | num : String → Json
  | bool : Bool → Json
  | null : Json
  | arr : List Json → Json
  | obj : List (String × Json) → Json

/-- JSON insignificant whitespace (the four characters JSON.parse skips). -/
def isJsonWs (c : Char) : Bool :=
  c = ' ' || c = '\t' || c = '\n' || c = '\r'

/-- Skip leading JSON whitespace. -/
def skipWs (cs : List Char) : List Char :=
  cs.dropWhile isJsonWs

/-- Value of a hexadecimal digit (at code-point level: 0-9, a-f, A-F). -/
def hexVal (c : Char) : Option Nat :=
  let n := c.toNat
  if 48 ≤ n && n ≤ 57 then some (n - 48)
  else if 97 ≤ n && n ≤ 102 then some (n - 87)
  else if 65 ≤ n && n ≤ 70 then some (n - 55)
  else none

/-- Parse the body of a JSON string literal (the opening quote already
consumed), handling the escape sequences JSON allows and rejecting raw
control characters, as `JSON.parse` does.  Returns the decoded characters
and the rest of the input. -/
def parseJStr : List Char → Option (List Char × List Char)
  | [] => none
  | '"' :: cs => some ([], cs)
  | '\\' :: '"' :: cs => (parseJStr cs).map (fun p => ('"' :: p.1, p.2))
  | '\\' :: '\\' :: cs => (parseJStr cs).map (fun p => ('\\' :: p.1, p.2))
  | '\\' :: '/' :: cs => (parseJStr cs).map (fun p => ('/' :: p.1, p.2))
  | '\\' :: 'b' :: cs => (parseJStr cs).map (fun p => ('\x08' :: p.1, p.2))
  | '\\' :: 'f' :: cs => (parseJStr cs).map (fun p => ('\x0c' :: p.1, p.2))
  | '\\' :: 'n' :: cs => (parseJStr cs).map (fun p => ('\n' :: p.1, p.2))
  | '\\' :: 'r' :: cs => (parseJStr cs).map (fun p => ('\r' :: p.1, p.2))
  | '\\' :: 't' :: cs => (parseJStr cs).map (fun p => ('\t' :: p.1, p.2))
  | '\\' :: 'u' :: h1 :: h2 :: h3 :: h4 :: cs =>
    match hexVal h1, hexVal h2, hexVal h3, hexVal h4 with
    | some a, some b, some c, some d =>
      (parseJStr cs).map (fun p => (Char.ofNat (((a * 16 + b) * 16 + c) * 16 + d) :: p.1, p.2))
    | _, _, _, _ => none
  | '\\' :: _ => none
  | c :: cs =>
    if c.toNat < 32 then none
    else (parseJStr cs).map (fun p => (c :: p.1, p.2))

/-- JSON fraction part: optional `.` followed by one or more digits. -/
def parseFrac : List Char → Option (List Char)
  | '.' :: t =>
    if t.takeWhile Char.isDigit = [] then none else some (t.dropWhile Char.isDigit)
  | cs => some cs

/-- After `e`/`E`: optional sign then one or more digits. -/
def parseExpTail (t : List Char) : Option (List Char) :=
  let t2 := match t with
    | '+' :: r => r
    | '-' :: r => r
    | _ => t
  if t2.takeWhile Char.isDigit = [] then none else some (t2.dropWhile Char.isDigit)

/-- JSON exponent part: optional `e`/`E`, sign, digits. -/
def parseExp : List Char → Option (List Char)
  | 'e' :: t => parseExpTail t
  | 'E' :: t => parseExpTail t
  | cs => some cs

/-- JSON number: optional minus, integer part (`0` or nonzero-led digits),
optional fraction, optional exponent.  Returns the remaining input. -/
def parseNumber (cs0 : List Char) : Option (List Char) :=
  let cs1 := match cs0 with
    | '-' :: t => t
    | _ => cs0
  match cs1 with
  | c :: t =>
    if c.isDigit then
      let r1 := if c = '0' then t else t.dropWhile Char.isDigit
      match parseFrac r1 with
      | some r2 => parseExp r2
      | none => none
    else none
  | [] => none

mutual

/-- Parse one JSON value.  `fuel` bounds recursion depth; the top-level
entry point supplies more fuel than any input of that length can consume. -/
def parseValue : Nat → List Char → Option (Json × List Char)
  | 0, _ => none
  | fuel + 1, cs =>
    match skipWs cs with
    | [] => none
    | c :: rest =>
      if c = '"' then
        match parseJStr rest with
        | some (chars, r) => some (Json.str ⟨chars⟩, r)
        | none => none
      else if c = 't' then
        if rest.take 3 = ['r', 'u', 'e'] then some (Json.bool true, rest.drop 3) else none
      else if c = 'f' then
        if rest.take 4 = ['a', 'l', 's', 'e'] then some (Json.bool false, rest.drop 4) else none
      else if c = 'n' then
        if rest.take 3 = ['u', 'l', 'l'] then some (Json.null, rest.drop 3) else none
      else if c = '[' then
        match skipWs rest with
        | ']' :: r2 => some (Json.arr [], r2)
        | _ =>
          match parseElems fuel rest with
          | some (vs, r2) => some (Json.arr vs, r2)
          | none => none
      else if c = '{' then
        match skipWs rest with
        | '}' :: r2 => some (Json.obj [], r2)
        | _ =>
          match parseMembers fuel rest with
          | some (ms, r2) => some (Json.obj ms, r2)
          | none => none
      else if c = '-' || c.isDigit then
        match parseNumber (c :: rest) with
        | some r2 =>
          some (Json.num ⟨(c :: rest).take ((c :: rest).length - r2.length)⟩, r2)
        | none => none
      else none

/-- Parse comma-separated array elements up to the closing bracket. -/
def parseElems : Nat → List Char → Option (List Json × List Char)
  | 0, _ => none
  | fuel + 1, cs =>
    match parseValue fuel cs with
    | none => none
    | some (v, r1) =>
      match skipWs r1 with
      | ',' :: r2 =>
        match parseElems fuel r2 with
        | some (vs, r3) => some (v :: vs, r3)
        | none => none
      | ']' :: r2 => some ([v], r2)
      | _ => none

/-- Parse comma-separated object members up to the closing brace. -/
def parseMembers : Nat → List Char → Option (List (String × Json) × List Char)
  | 0, _ => none
  | fuel + 1, cs =>
    match skipWs cs with
    | '"' :: r1 =>
      match parseJStr r1 with
      | none => none
      | some (kChars, r2) =>
        match skipWs r2 with
        | ':' :: r3 =>
          match parseValue fuel r3 with
          | none => none
          | some (v, r4) =>
            match skipWs r4 with
            | ',' :: r5 =>
              match parseMembers fuel r5 with
              | some (ms, r6) => some ((⟨kChars⟩, v) :: ms, r6)
              | none => none
            | '}' :: r5 => some ([(⟨kChars⟩, v)], r5)
            | _ => none
        | _ => none
    | _ => none

end

/-- Model of `JSON.parse`: parse one value, allow surrounding whitespace,
require the whole input to be consumed; `none` models a thrown
`SyntaxError`. -/
def jsonParse (s : String) : Option Json :=
  match parseValue (2 * s.length + 2) s.data with
  | some (v, rest) => if skipWs rest = [] then some v else none
  | none => none

/- ===================== Model of the stream decoding ===================== -/

/-- JS `s.startsWith(pre)`: the first characters of `s` are exactly `pre`. -/
def strStartsWith (s pre : String) : Bool :=
  s.data.take pre.data.length == pre.data

/-- JS `s.endsWith(suf)`: the last characters of `s` are exactly `suf`. -/
def strEndsWith (s suf : String) : Bool :=
  s.data.reverse.take suf.data.length == suf.data.reverse

/-- Accumulator-style worker for `splitLines`. -/
def splitLinesAux : List Char → List Char → List (List Char)
  | [], acc => [acc.reverse]
  | '\n' :: rest, acc => acc.reverse :: splitLinesAux rest []
  | c :: rest, acc => splitLinesAux rest (c :: acc)

/-- Model of JS `rawResponse.split("\n")`: split on every newline;
the empty string splits to `[""]`. -/
def splitLines (s : String) : List String :=
  (splitLinesAux s.data []).map (fun cs => ⟨cs⟩)

/-- Model of `line.slice(2).replace(/^"|"$/g, "")`: remove one leading and
one trailing double-quote character if present (the regex matches each at
most once per string). -/
def stripQuotes (s : String) : String :=
  let s1 := if strStartsWith s "\"" then s.drop 1 else s
  if strEndsWith s1 "\"" then s1.dropRight 1 else s1

/-- The whitespace set of JavaScript's `String.prototype.trim`
(WhiteSpace and LineTerminator code points). -/
def jsWhitespace (c : Char) : Bool :=
  c = ' ' || c = '\t' || c = '\n' || c = '\x0b' || c = '\x0c' || c = '\r' ||
  c = '\u00A0' || c = '\u1680' ||
  ('\u2000' ≤ c && c ≤ '\u200A') ||
  c = '\u2028' || c = '\u2029' || c = '\u202F' || c = '\u205F' ||
  c = '\u3000' || c = '\uFEFF'

/-- Trim on character lists: drop leading then trailing whitespace. -/
def wsTrim (l : List Char) : List Char :=
  (l.dropWhile jsWhitespace).rdropWhile jsWhitespace

/-- Model of JavaScript `s.trim()`. -/
def jsTrim (s : String) : String :=
  ⟨wsTrim s.data⟩

/-- The decoded contribution of one response line, or `none` when the line
is skipped: lines not tagged `0:` are discarded; on a `0:` line the payload
is `JSON.parse`d, kept when it is a string, silently dropped when it parses
to a non-string, and on parse failure the quote-stripped raw text is kept
when non-empty (the `catch` branch). -/
def lineChunk (line : String) : Option String :=
  if strStartsWith line "0:" then
    let payload := line.drop 2
    match jsonParse payload with
    | some (Json.str s) => some s
    | some _ => none
    | none =>
      let t := stripQuotes payload
      if t = "" then none else some t
  else none

/-- All kept text chunks of a list of response lines, in line order. -/
def textChunks (lines : List String) : List String :=
  lines.filterMap lineChunk

/-- The fixed fallback answer returned when no usable text was decoded. -/
def fallbackMessage : String :=
  "No response generated. Please try rephrasing your question."

/-- Model of `parseStreamedResponse` (identical in both source variants):
split the body on newlines, keep only `0:` text chunks, join them, trim;
when the trimmed content is empty return the fallback message. -/
def parseStreamedResponse (rawResponse : String) : String :=
  let chunks := textChunks (splitLines rawResponse)
  let content := String.join chunks
  if jsTrim content = "" then fallbackMessage else jsTrim content

example : parseStreamedResponse "0:\"hello\"\n9:tool\n0:\" world\"" = "hello world" := by rfl
example : parseStreamedResponse "f:x\nd:done" = fallbackMessage := by rfl
example : parseStreamedResponse "0:not-valid-json\n0:\"hello\"" = "not-valid-jsonhello" := by rfl
example : jsonParse "not-valid-json" = none := by rfl
example : jsonParse "\"hello\"" = some (Json.str "hello") := by rfl
example : parseStreamedResponse "0:\" \"" = fallbackMessage := by rfl

/- ===================== Conversation data model ===================== -/

/-- Message roles. -/
inductive Role where
  | user : Role
  | assistant : Role
deriving DecidableEq, Repr

/-- One element of a message's `parts` array. -/
structure MsgPart where
  type : String
  text : Option String
deriving DecidableEq, Repr

/-- One conversation turn, mirroring the `Message` interface. -/
structure Message where
  id : String
  role : Role
  content : String
  createdAt : String
  parts : List MsgPart
deriving DecidableEq, Repr

/-- Per-project conversation history, mirroring `ConversationState`. -/
structure ConversationState where
  messages : List Message
deriving DecidableEq, Repr

/-- The `conversations` map, keyed by project id. -/
abbrev ConvMap := String → Option ConversationState

/-- The empty `conversations` map at process start. -/
def emptyConvMap : ConvMap := fun _ => none

/-- JS `Map.set`. -/
def mapSet (m : ConvMap) (k : String) (v : ConversationState) : ConvMap :=
  fun k2 => if k2 = k then some v else m k2

/-- JS `Map.delete`. -/
def mapDelete (m : ConvMap) (k : String) : ConvMap :=
  fun k2 => if k2 = k then none else m k2

/- ===================== Mintlify request construction ===================== -/

/-- One entry of the static `KNOWN_DOCS` registry. -/
structure DocInfo where
  name : String
  domain : String
deriving DecidableEq, Repr

/-- The static known-projects mapping (a single entry in both variants). -/
def KNOWN_DOCS (projectId : String) : Option DocInfo :=
  if projectId = "agno-v2" then some ⟨"Agno", "docs.agno.com"⟩ else none

/-- Upstream API base URL. -/
def MINTLIFY_API_BASE : String := "https://leaves.mintlify.com/api/assistant"

/-- Domain resolution of `src/src/index.ts`:
`KNOWN_DOCS[projectId]?.domain || "docs.example.com"`. -/
def mintlifyDomain (projectId : String) : String :=
  match KNOWN_DOCS projectId with
  | some info => info.domain
  | none => "docs.example.com"

/-- Domain resolution of the `part_001` variant:
`KNOWN_DOCS[projectId]?.domain || `${projectId}.mintlify.app``. -/
def mintlifyDomainV2 (projectId : String) : String :=
  match KNOWN_DOCS projectId with
  | some info => info.domain
  | none => projectId ++ ".mintlify.app"

/-- The fresh user turn `askMintlify` appends to the history it was given:
ordinal id `history.length + 1`, a single text part. -/
def newUserMessage (question : String) (histLen : Nat) (ts : String) : Message :=
  ⟨toString (histLen + 1), Role.user, question, ts, [⟨"text", some question⟩]⟩

/-- The outbound HTTP request: URL, browser-like headers, and the JSON body
fields (`id`, `fp`, `messages`). -/
structure Request where
  url : String
  origin : String
  referer : String
  id : String
  fp : String
  messages : List Message
deriving DecidableEq, Repr

/-- The request `askMintlify` (index.ts variant) sends for a project,
question and history. -/
def askMintlifyRequest (projectId question : String) (hist : List Message)
    (ts : String) : Request :=
  let domain := mintlifyDomain projectId
  { url := MINTLIFY_API_BASE ++ "/" ++ projectId ++ "/message"
    origin := "https://" ++ domain
    referer := "https://" ++ domain ++ "/"
    id := projectId
    fp := projectId
    messages := hist ++ [newUserMessage question hist.length ts] }

/-- The request the `part_001` variant sends (only the fallback domain
differs). -/
def askMintlifyRequestV2 (projectId question : String) (hist : List Message)
    (ts : String) : Request :=
  let domain := mintlifyDomainV2 projectId
  { url := MINTLIFY_API_BASE ++ "/" ++ projectId ++ "/message"
    origin := "https://" ++ domain
    referer := "https://" ++ domain ++ "/"
    id := projectId
    fp := projectId
    messages := hist ++ [newUserMessage question hist.length ts] }

/-- The environment's answer to the `fetch` call: a buffered response body
on HTTP success, or a non-success status with its status text. -/
inductive FetchOutcome where
  | success : String → FetchOutcome
  | httpError : Nat → String → FetchOutcome
deriving DecidableEq, Repr

/-- Model of `askMintlify`: on a non-ok response throw
`Mintlify API error: {status} {statusText}`; on success decode the body. -/
def askMintlify (projectId question : String) (hist : List Message)
    (ts : String) (o : FetchOutcome) : Except String String :=
  match o with
  | FetchOutcome.httpError status statusText =>
    Except.error ("Mintlify API error: " ++ toString status ++ " " ++ statusText)
  | FetchOutcome.success body =>
    Except.ok (parseStreamedResponse body)

/- ===================== Tool handlers ===================== -/

/-- A tool invocation result: the returned text and the `isError` flag. -/
structure ToolResult where
  text : String
  isError : Bool
deriving DecidableEq, Repr

/-- Everything observable about one handler run: the updated conversation
map, the upstream request that was (or would have been) sent, and the tool
result. -/
structure HandlerOut where
  conversations : ConvMap
  request : Request
  result : ToolResult

/-- The `ask_docs` handler of `src/src/index.ts`: reset the project's state
unless it exists and `continue_conversation` is set, call `askMintlify`, and
on success append the user/assistant turn pair; on error return an
error-flagged tool result (`Error querying documentation: ...`).
`ts1` is the request timestamp, `ts2`/`ts3` the two history timestamps. -/
def askDocsHandler (m : ConvMap) (project_id question : String)
    (continue_conversation : Bool) (ts1 ts2 ts3 : String)
    (o : FetchOutcome) : HandlerOut :=
  let state0 := m project_id
  let reset := state0.isNone || !continue_conversation
  let state := if reset then ⟨[]⟩ else state0.getD ⟨[]⟩
  let m1 := if reset then mapSet m project_id state else m
  let req := askMintlifyRequest project_id question state.messages ts1
  match askMintlify project_id question state.messages ts1 o with
  | Except.error msg =>
    { conversations := m1
      request := req
      result := ⟨"Error querying documentation: " ++ msg, true⟩ }
  | Except.ok answer =>
    let msgs1 := state.messages ++
      [⟨toString (state.messages.length + 1), Role.user, question, ts2,
        [⟨"text", some question⟩]⟩]
    let msgs2 := msgs1 ++
      [⟨toString (msgs1.length + 1), Role.assistant, answer, ts3,
        [⟨"text", some answer⟩]⟩]
    { conversations := mapSet m1 project_id ⟨msgs2⟩
      request := req
      result := ⟨answer, false⟩ }

/-- The `ask_docs` / `ask` handler of the `part_001` variant (generic mode
has no continue flag; locked mode fixes the project id): get or create the
project's state, never reset it, call `askMintlify`, append the turn pair on
success; errors come back as `Error: ...`. -/
def askHandlerV2 (m : ConvMap) (project_id question : String)
    (ts1 ts2 ts3 : String) (o : FetchOutcome) : HandlerOut :=
  let state0 := m project_id
  let state := state0.getD ⟨[]⟩
  let m1 := if state0.isNone then mapSet m project_id state else m
  let req := askMintlifyRequestV2 project_id question state.messages ts1
  match askMintlify project_id question state.messages ts1 o with
  | Except.error msg =>
    { conversations := m1
      request := req
      result := ⟨"Error: " ++ msg, true⟩ }
  | Except.ok answer =>
    let msgs1 := state.messages ++
      [⟨toString (state.messages.length + 1), Role.user, question, ts2,
        [⟨"text", some question⟩]⟩]
    let msgs2 := msgs1 ++
      [⟨toString (msgs1.length + 1), Role.assistant, answer, ts3,
        [⟨"text", some answer⟩]⟩]
    { conversations := mapSet m1 project_id ⟨msgs2⟩
      request := req
      result := ⟨answer, false⟩ }

/-- `clear_conversation` / `clear_history`: drop the project's state. -/
def clearConversation (m : ConvMap) (project_id : String) : ConvMap :=
  mapDelete m project_id

/- ===================== Event sequences ===================== -/

/-- One tool invocation, as processed one at a time by the server.  The
fetch outcome and timestamps ride along as environment data. -/
inductive Event where
  | askDocs : String → String → Bool → String → String → String → FetchOutcome → Event
  | askDocsV2 : String → String → String → String → String → FetchOutcome → Event
  | askLocked : String → String → String → String → FetchOutcome → Event
  | clearConv : String → Event
  | clearHistory : Event

/-- Apply one invocation to the conversation map.  `lockedPid` is the
`--project` id a locked-mode instance was started with. -/
def stepEvent (lockedPid : String) (m : ConvMap) : Event → ConvMap
  | Event.askDocs pid q cont ts1 ts2 ts3 o =>
    (askDocsHandler m pid q cont ts1 ts2 ts3 o).conversations
  | Event.askDocsV2 pid q ts1 ts2 ts3 o =>
    (askHandlerV2 m pid q ts1 ts2 ts3 o).conversations
  | Event.askLocked q ts1 ts2 ts3 o =>
    (askHandlerV2 m lockedPid q ts1 ts2 ts3 o).conversations
  | Event.clearConv pid => clearConversation m pid
  | Event.clearHistory => clearConversation m lockedPid

/-- The conversation map after a sequence of invocations from process
start. -/
def runEvents (lockedPid : String) (evs : List Event) : ConvMap :=
  evs.foldl (stepEvent lockedPid) emptyConvMap

/-- The spec's history invariant as a boolean predicate: the turn list is a
sequence of user/assistant pairs (hence even-length, strictly alternating,
and user-first when non-empty). -/
def wellFormed : List Message → Bool
  | [] => true
  | u :: a :: rest =>
    decide (u.role = Role.user) && decide (a.role = Role.assistant) && wellFormed rest
  | _ => false

/-- The state the `src/src/index.ts` handler holds right before the
upstream call: the prior state if it exists and the continue flag is set,
otherwise a fresh empty one. -/
def preCallState (m : ConvMap) (pid : String) (cont : Bool) :
    ConversationState :=
  if (m pid).isNone || !cont then ⟨[]⟩ else (m pid).getD ⟨[]⟩

/-- The state the `part_001` handler holds right before the upstream call:
the prior state if it exists, otherwise a fresh empty one (never reset). -/
def preCallStateV2 (m : ConvMap) (pid : String) : ConversationState :=
  (m pid).getD ⟨[]⟩

/- ===================== Map helper lemmas ===================== -/

theorem mapSet_self (m : ConvMap) (k : String) (v : ConversationState) :
    mapSet m k v k = some v := by
  simp [mapSet]

theorem mapSet_other (m : ConvMap) (k k2 : String) (v : ConversationState)
    (h : k2 ≠ k) : mapSet m k v k2 = m k2 := by
  simp [mapSet, h]

/- ===================== Claim theorems: conversation side ===================== -/

/-- Claim C2: after `ask_docs("p", "Q1")` succeeds with answer `A1`, a
second `ask_docs("p", "Q2", continue_conversation := true)` sends an
upstream request whose `messages` field has exactly three entries, in
order: user `Q1`, assistant `A1`, user `Q2` (where `A1` is the decoded
answer of the first call, which the first call returned without error). -/
theorem c2_continue_conversation_three_messages (m0 : ConvMap)
    (p Q1 Q2 body1 : String) (ts1 ts2 ts3 ts4 ts5 ts6 : String)
    (o2 : FetchOutcome) :
    (askDocsHandler
        (askDocsHandler m0 p Q1 false ts1 ts2 ts3
          (FetchOutcome.success body1)).conversations
        p Q2 true ts4 ts5 ts6 o2).request.messages.map
        (fun msg => (msg.role, msg.content)) =
      [(Role.user, Q1), (Role.assistant, parseStreamedResponse body1),
        (Role.user, Q2)] ∧
    (askDocsHandler m0 p Q1 false ts1 ts2 ts3
        (FetchOutcome.success body1)).result =
      ⟨parseStreamedResponse body1, false⟩ := by
  refine ⟨?_, by simp [askDocsHandler, askMintlify]⟩
  cases o2 <;>
    simp [askDocsHandler, askMintlify, askMintlifyRequest, mapSet,
      newUserMessage]

/-- Claim C3 (amended): in the `src/src/index.ts` variant,
`ask_docs(p, Q1)` followed by `ask_docs(p, Q2)` with the continue flag
omitted or false resets `p`'s history, so the second request carries exactly
one entry, a user turn with `Q2`; but in the `part_001` generic-mode
variant `ask_docs` accepts no continue flag and never resets, so there the
second request carries three entries: user `Q1`, assistant `A1`, user
`Q2`. -/
theorem c3_reset_only_in_index_variant (m0 : ConvMap)
    (p Q1 Q2 body1 : String) (ts1 ts2 ts3 ts4 ts5 ts6 : String)
    (o2 : FetchOutcome) :
    (askDocsHandler
        (askDocsHandler m0 p Q1 false ts1 ts2 ts3
          (FetchOutcome.success body1)).conversations
        p Q2 false ts4 ts5 ts6 o2).request.messages.map
        (fun msg => (msg.role, msg.content)) =
      [(Role.user, Q2)] ∧
    (askHandlerV2
        (askHandlerV2 emptyConvMap p Q1 ts1 ts2 ts3
          (FetchOutcome.success body1)).conversations
        p Q2 ts4 ts5 ts6 o2).request.messages.map
        (fun msg => (msg.role, msg.content)) =
      [(Role.user, Q1), (Role.assistant, parseStreamedResponse body1),
        (Role.user, Q2)] := by
  constructor
  · cases o2 <;>
      simp [askDocsHandler, askMintlify, askMintlifyRequest, mapSet,
        newUserMessage]
  · cases o2 <;>
      simp [askHandlerV2, askMintlify, askMintlifyRequestV2, mapSet,
        newUserMessage, emptyConvMap]

/-- Claim C3 (counterexample): in the `part_001` generic-mode variant, a
second `ask_docs` call with no continue flag sends three upstream messages,
not one — history is not reset. -/
theorem c3_counterexample_v2_sends_three : 
    ((askHandlerV2
        (askHandlerV2 emptyConvMap "p" "Q1" "t1" "t2" "t3"
          (FetchOutcome.success "0:\"A1\"")).conversations
        "p" "Q2" "t4" "t5" "t6"
        (FetchOutcome.success "")).request.messages.length = 3) ∧
    ((askHandlerV2
        (askHandlerV2 emptyConvMap "p" "Q1" "t1" "t2" "t3"
          (FetchOutcome.success "0:\"A1\"")).conversations
        "p" "Q2" "t4" "t5" "t6"
        (FetchOutcome.success "")).request.messages.length ≠ 1) := by
  exact ⟨rfl, by decide⟩

/-- Claim C6 (amended): for a project id absent from `KNOWN_DOCS`, the
`part_001` variant derives the fallback domain by appending the suffix
`.mintlify.app` to the project id, while the `src/src/index.ts` variant
falls back to the fixed domain `docs.example.com`; in both variants request
construction is a total function of the inputs, so an unknown project id
never causes an error while building the request. -/
theorem c6_unknown_project_fallback_domains (pid q ts : String)
    (hist : List Message) (h : KNOWN_DOCS pid = none) :
    mintlifyDomainV2 pid = pid ++ ".mintlify.app" ∧
    mintlifyDomain pid = "docs.example.com" ∧
    (askMintlifyRequestV2 pid q hist ts).origin =
      "https://" ++ (pid ++ ".mintlify.app") ∧
    (askMintlifyRequest pid q hist ts).url =
      MINTLIFY_API_BASE ++ "/" ++ pid ++ "/message" ∧
    (askMintlifyRequest pid q hist ts).id = pid ∧
    (askMintlifyRequest pid q hist ts).fp = pid := by
  refine ⟨?_, ?_, ?_, rfl, rfl, rfl⟩ <;>
    simp [mintlifyDomainV2, mintlifyDomain, askMintlifyRequestV2, h]

theorem c6_unknown_project_fallback_domains_witness :
    KNOWN_DOCS "zzz" = none ∧
    mintlifyDomainV2 "zzz" = "zzz" ++ ".mintlify.app" ∧
    mintlifyDomain "zzz" = "docs.example.com" := by
  refine ⟨by decide, ?_, ?_⟩
  · exact (c6_unknown_project_fallback_domains "zzz" "q" "t" [] (by decide)).1
  · exact (c6_unknown_project_fallback_domains "zzz" "q" "t" [] (by decide)).2.1

/-- Claim C6 (counterexample): in `src/src/index.ts` the fallback domain is
the fixed `docs.example.com`, not something derived from the project id by
appending a suffix: two distinct unknown ids get the same domain, which no
map of the form `pid ++ suffix` can produce. -/
theorem c6_counterexample_fixed_fallback :
    KNOWN_DOCS "a" = none ∧ KNOWN_DOCS "ab" = none ∧
    mintlifyDomain "a" = "docs.example.com" ∧
    mintlifyDomain "ab" = "docs.example.com" ∧
    ¬ (∃ suffix : String, ∀ pid : String,
        KNOWN_DOCS pid = none → mintlifyDomain pid = pid ++ suffix) := by
  refine ⟨by decide, by decide, by decide, by decide, ?_⟩
  rintro ⟨suf, h⟩
  have e1 := congrArg String.length (h "a" (by decide))
  have e2 := congrArg String.length (h "ab" (by decide))
  rw [String.length_append] at e1 e2
  have l1 : (mintlifyDomain "a").length = 16 := rfl
  have l2 : (mintlifyDomain "ab").length = 16 := rfl
  have l3 : ("a" : String).length = 1 := rfl
  have l4 : ("ab" : String).length = 2 := rfl
  rw [l1, l3] at e1
  rw [l2, l4] at e2
  omega

/-- Claim C7: on a non-success HTTP status, `askMintlify` fails with an
error carrying the numeric status and status text, and the `ask_docs`
handler catches it and returns a tool result flagged as an error with a
human-readable message; the handler is a total function, so a per-question
failure never terminates the process. -/
theorem c7_upstream_error_propagates (m : ConvMap) (pid q : String)
    (cont : Bool) (ts1 ts2 ts3 : String) (hist : List Message)
    (status : Nat) (statusText : String) :
    askMintlify pid q hist ts1 (FetchOutcome.httpError status statusText) =
      Except.error
        ("Mintlify API error: " ++ toString status ++ " " ++ statusText) ∧
    (askDocsHandler m pid q cont ts1 ts2 ts3
        (FetchOutcome.httpError status statusText)).result =
      ⟨"Error querying documentation: " ++
        ("Mintlify API error: " ++ toString status ++ " " ++ statusText),
        true⟩ := by
  exact ⟨rfl, by simp [askDocsHandler, askMintlify]⟩

/-- Claim C9: when the upstream call fails, no turn is appended during the
invocation — in every handler variant the project's state after the call is
exactly the state that was in hand before the upstream call (which, for the
index.ts variant with the continue flag unset, is the freshly installed
empty state), and the result is flagged as an error. -/
theorem c9_no_turns_appended_on_failure (m : ConvMap) (pid q : String)
    (cont : Bool) (ts1 ts2 ts3 : String) (status : Nat)
    (statusText : String) :
    (askDocsHandler m pid q cont ts1 ts2 ts3
        (FetchOutcome.httpError status statusText)).conversations pid =
      some (preCallState m pid cont) ∧
    (askDocsHandler m pid q cont ts1 ts2 ts3
        (FetchOutcome.httpError status statusText)).result.isError = true ∧
    (askHandlerV2 m pid q ts1 ts2 ts3
        (FetchOutcome.httpError status statusText)).conversations pid =
      some (preCallStateV2 m pid) ∧
    (askHandlerV2 m pid q ts1 ts2 ts3
        (FetchOutcome.httpError status statusText)).result.isError = true := by
  refine ⟨?_, by simp [askDocsHandler, askMintlify], ?_,
    by simp [askHandlerV2, askMintlify]⟩
  · rcases hm : m pid with _ | st <;> cases cont <;>
      simp [askDocsHandler, askMintlify, preCallState, mapSet, hm]
  · rcases hm : m pid with _ | st <;>
      simp [askHandlerV2, askMintlify, preCallStateV2, mapSet, hm]

/- ===================== Claim C8: history invariant ===================== -/

theorem wellFormed_append_pair (u a : Message) (hu : u.role = Role.user)
    (ha : a.role = Role.assistant) :
    ∀ l : List Message, wellFormed l = true → wellFormed (l ++ [u, a]) = true
  | [], _ => by simp [wellFormed, hu, ha]
  | [x], h => by simp [wellFormed] at h
  | x :: y :: rest, h => by
    simp only [wellFormed, Bool.and_eq_true, decide_eq_true_eq] at h
    simp only [List.cons_append, wellFormed, Bool.and_eq_true, decide_eq_true_eq]
    exact ⟨h.1, wellFormed_append_pair u a hu ha rest h.2⟩

theorem askDocsHandler_preserves_wf (m : ConvMap) (pid q : String)
    (cont : Bool) (ts1 ts2 ts3 : String) (o : FetchOutcome)
    (hm : ∀ pid2 st, m pid2 = some st → wellFormed st.messages = true) :
    ∀ pid2 st,
      (askDocsHandler m pid q cont ts1 ts2 ts3 o).conversations pid2 = some st →
      wellFormed st.messages = true := by
  intro pid2 st h
  by_cases hp : pid2 = pid
  · subst hp
    rcases hmp : m pid2 with _ | st0 <;> cases cont <;> cases o <;>
      simp [askDocsHandler, askMintlify, mapSet, hmp] at h <;>
      rw [← h] <;>
      first
        | (simp [wellFormed]; done)
        | exact hm pid2 st0 hmp
        | refine wellFormed_append_pair _ _ rfl rfl st0.messages (hm pid2 st0 hmp)
  · rcases hmp : m pid with _ | st0 <;> cases cont <;> cases o <;>
      simp [askDocsHandler, askMintlify, mapSet, hmp, hp] at h <;>
      exact hm pid2 st h

theorem askHandlerV2_preserves_wf (m : ConvMap) (pid q : String)
    (ts1 ts2 ts3 : String) (o : FetchOutcome)
    (hm : ∀ pid2 st, m pid2 = some st → wellFormed st.messages = true) :
    ∀ pid2 st,
      (askHandlerV2 m pid q ts1 ts2 ts3 o).conversations pid2 = some st →
      wellFormed st.messages = true := by
  intro pid2 st h
  by_cases hp : pid2 = pid
  · subst hp
    rcases hmp : m pid2 with _ | st0 <;> cases o <;>
      simp [askHandlerV2, askMintlify, mapSet, hmp] at h <;>
      rw [← h] <;>
      first
        | (simp [wellFormed]; done)
        | exact hm pid2 st0 hmp
        | refine wellFormed_append_pair _ _ rfl rfl st0.messages (hm pid2 st0 hmp)
  · rcases hmp : m pid with _ | st0 <;> cases o <;>
      simp [askHandlerV2, askMintlify, mapSet, hmp, hp] at h <;>
      exact hm pid2 st h

theorem clearConversation_preserves_wf (m : ConvMap) (pid : String)
    (hm : ∀ pid2 st, m pid2 = some st → wellFormed st.messages = true) :
    ∀ pid2 st, clearConversation m pid pid2 = some st →
      wellFormed st.messages = true := by
  intro pid2 st h
  by_cases hp : pid2 = pid <;>
    simp [clearConversation, mapDelete, hp] at h
  exact hm pid2 st h

theorem stepEvent_preserves_wf (lockedPid : String) (m : ConvMap) (e : Event)
    (hm : ∀ pid2 st, m pid2 = some st → wellFormed st.messages = true) :
    ∀ pid2 st, stepEvent lockedPid m e pid2 = some st →
      wellFormed st.messages = true := by
  cases e with
  | askDocs pid q cont ts1 ts2 ts3 o =>
    exact askDocsHandler_preserves_wf m pid q cont ts1 ts2 ts3 o hm
  | askDocsV2 pid q ts1 ts2 ts3 o =>
    exact askHandlerV2_preserves_wf m pid q ts1 ts2 ts3 o hm
  | askLocked q ts1 ts2 ts3 o =>
    exact askHandlerV2_preserves_wf m lockedPid q ts1 ts2 ts3 o hm
  | clearConv pid => exact clearConversation_preserves_wf m pid hm
  | clearHistory => exact clearConversation_preserves_wf m lockedPid hm

theorem foldl_stepEvent_preserves_wf (lockedPid : String) :
    ∀ (evs : List Event) (m : ConvMap),
      (∀ pid2 st, m pid2 = some st → wellFormed st.messages = true) →
      ∀ pid2 st, evs.foldl (stepEvent lockedPid) m pid2 = some st →
        wellFormed st.messages = true
  | [], m, hm => hm
  | e :: evs, m, hm =>
    foldl_stepEvent_preserves_wf lockedPid evs (stepEvent lockedPid m e)
      (stepEvent_preserves_wf lockedPid m e hm)

/-- Claim C8: in every conversation map reachable from process start by any
sequence of `ask_docs` / `ask` / `clear_conversation` / `clear_history`
invocations processed one at a time, every project's `messages` sequence is
a list of user/assistant pairs: even length, strictly alternating roles, and
user-first when non-empty. -/
theorem c8_reachable_histories_well_formed (lockedPid : String)
    (evs : List Event) (pid : String) (st : ConversationState)
    (h : runEvents lockedPid evs pid = some st) :
    wellFormed st.messages = true := by
  refine foldl_stepEvent_preserves_wf lockedPid evs emptyConvMap ?_ pid st h
  intro pid2 st2 h2
  simp [emptyConvMap] at h2

theorem c8_reachable_histories_well_formed_witness :
    wellFormed (ConversationState.mk []).messages = true :=
  c8_reachable_histories_well_formed "agno-v2"
    [Event.askDocs "p" "q" false "t1" "t2" "t3"
      (FetchOutcome.httpError 500 "Internal Server Error")]
    "p" ⟨[]⟩ rfl

/- ===================== Stream decoding lemmas ===================== -/

theorem lineChunk_eq_none (l : String) (h : strStartsWith l "0:" = false) :
    lineChunk l = none := by
  simp [lineChunk, h]

theorem filterMap_lineChunk_eq_nil (L : List String)
    (h : ∀ l ∈ L, strStartsWith l "0:" = false) :
    L.filterMap lineChunk = [] := by
  rw [List.filterMap_eq_nil_iff]
  intro l hl
  exact lineChunk_eq_none l (h l hl)

theorem dropWhile_eq_self_of_initial {α : Type} {p : α → Bool} {u v : List α}
    (hu : u.dropWhile p = u) (hv : v <+: u) : v.dropWhile p = v := by
  rw [List.dropWhile_eq_self_iff] at hu ⊢
  intro hl
  obtain ⟨r, hr⟩ := hv
  subst hr
  have h0 : 0 < (v ++ r).length := by
    simp only [List.length_append]
    omega
  have h2 := hu h0
  simp only [List.get_eq_getElem] at h2 ⊢
  rwa [List.getElem_append_left hl] at h2

theorem wsTrim_idem (l : List Char) : wsTrim (wsTrim l) = wsTrim l := by
  unfold wsTrim
  have hu : (l.dropWhile jsWhitespace).dropWhile jsWhitespace =
      l.dropWhile jsWhitespace :=
    List.dropWhile_idempotent jsWhitespace l
  have hpre : (l.dropWhile jsWhitespace).rdropWhile jsWhitespace <+:
      l.dropWhile jsWhitespace :=
    List.rdropWhile_prefix jsWhitespace (l.dropWhile jsWhitespace)
  have h1 : ((l.dropWhile jsWhitespace).rdropWhile jsWhitespace).dropWhile
      jsWhitespace = (l.dropWhile jsWhitespace).rdropWhile jsWhitespace :=
    dropWhile_eq_self_of_initial hu hpre
  rw [h1]
  exact List.rdropWhile_idempotent jsWhitespace (l.dropWhile jsWhitespace)

theorem jsTrim_idem (s : String) : jsTrim (jsTrim s) = jsTrim s :=
  congrArg (fun l => (⟨l⟩ : String)) (wsTrim_idem s.data)

/- ===================== Claim theorems: stream decoding ===================== -/

/-- Claim C1: the answer is built solely from `0:`-tagged lines, whose
decoded payloads are concatenated in line order; every line with any other
prefix is discarded.  In particular a body whose `0:` lines are exactly
`0:"hello"` and `0:" world"`, in that order, interleaved anywhere with
lines of other prefixes, decodes to exactly `"hello world"`. -/
theorem c1_text_chunks_in_line_order (s : String) (pre mid post : List String)
    (hsplit : splitLines s =
      pre ++ "0:\"hello\"" :: (mid ++ "0:\" world\"" :: post))
    (hpre : ∀ l ∈ pre, strStartsWith l "0:" = false)
    (hmid : ∀ l ∈ mid, strStartsWith l "0:" = false)
    (hpost : ∀ l ∈ post, strStartsWith l "0:" = false) :
    parseStreamedResponse s = "hello world" := by
  have e1 : lineChunk "0:\"hello\"" = some "hello" := rfl
  have e2 : lineChunk "0:\" world\"" = some " world" := rfl
  have hchunks : textChunks (splitLines s) = ["hello", " world"] := by
    rw [hsplit]
    simp only [textChunks, List.filterMap_append, List.filterMap_cons_some e1,
      List.filterMap_cons_some e2, filterMap_lineChunk_eq_nil pre hpre,
      filterMap_lineChunk_eq_nil mid hmid, filterMap_lineChunk_eq_nil post hpost,
      List.nil_append, List.append_nil]
  simp only [parseStreamedResponse, hchunks]
  rfl

theorem c1_text_chunks_in_line_order_witness :
    parseStreamedResponse "f:x\n0:\"hello\"\n9:y\n0:\" world\"\nd:z" =
      "hello world" :=
  c1_text_chunks_in_line_order _ ["f:x"] ["9:y"] ["d:z"] rfl
    (by decide) (by decide) (by decide)

/-- Claim C4: a body with no `0:`-tagged line decodes to the fixed fallback
message, never the empty string; the decoder is a total function, so no
error is raised for such a body. -/
theorem c4_no_chunks_gives_fallback (s : String)
    (h : ∀ l ∈ splitLines s, strStartsWith l "0:" = false) :
    parseStreamedResponse s = fallbackMessage ∧
    parseStreamedResponse s ≠ "" := by
  have h1 : parseStreamedResponse s = fallbackMessage := by
    simp only [parseStreamedResponse, textChunks,
      filterMap_lineChunk_eq_nil (splitLines s) h]
    rfl
  exact ⟨h1, by rw [h1]; decide⟩

theorem c4_no_chunks_gives_fallback_witness :
    parseStreamedResponse "f:meta\nd:done" = fallbackMessage ∧
    parseStreamedResponse "f:meta\nd:done" ≠ "" :=
  c4_no_chunks_gives_fallback "f:meta\nd:done" (by decide)

/-- Claim C5: a `0:` line whose payload is not valid JSON is recovered
locally: one leading and one trailing quote character are stripped and the
remainder, when non-empty, is accumulated as a chunk; decoding of the
remaining lines continues unchanged, and the decoder never surfaces an
error (it is total).  Concretely, `0:not-valid-json` followed by
`0:"hello"` decodes to `not-valid-jsonhello`. -/
theorem c5_malformed_chunk_recovered (l : String) (ls : List String)
    (h0 : strStartsWith l "0:" = true)
    (hj : jsonParse (l.drop 2) = none)
    (hs : stripQuotes (l.drop 2) ≠ "") :
    textChunks (l :: ls) = stripQuotes (l.drop 2) :: textChunks ls ∧
    parseStreamedResponse "0:not-valid-json\n0:\"hello\"" =
      "not-valid-jsonhello" := by
  refine ⟨?_, rfl⟩
  simp [textChunks, lineChunk, h0, hj, hs]

theorem c5_malformed_chunk_recovered_witness :
    textChunks ["0:not-valid-json", "0:\"hello\""] =
      stripQuotes ("0:not-valid-json".drop 2) :: textChunks ["0:\"hello\""] ∧
    parseStreamedResponse "0:not-valid-json\n0:\"hello\"" =
      "not-valid-jsonhello" :=
  c5_malformed_chunk_recovered "0:not-valid-json" ["0:\"hello\""]
    rfl rfl (by decide)

/-- Claim C10: when text chunks were found but their concatenation trims to
the empty string, the decoder also returns the fixed fallback message; and
for every body the returned answer is a non-empty string that carries no
leading or trailing whitespace (it is a fixed point of trimming). -/
theorem c10_answer_nonempty_and_trimmed (s : String) :
    (textChunks (splitLines s) ≠ [] →
      jsTrim (String.join (textChunks (splitLines s))) = "" →
      parseStreamedResponse s = fallbackMessage) ∧
    parseStreamedResponse s ≠ "" ∧
    jsTrim (parseStreamedResponse s) = parseStreamedResponse s := by
  by_cases hc : jsTrim (String.join (textChunks (splitLines s))) = ""
  · have hp : parseStreamedResponse s = fallbackMessage := by
      simp only [parseStreamedResponse]
      rw [if_pos hc]
    refine ⟨fun _ _ => hp, ?_, ?_⟩ <;> rw [hp] <;> decide
  · have hp : parseStreamedResponse s =
        jsTrim (String.join (textChunks (splitLines s))) := by
      simp only [parseStreamedResponse]
      rw [if_neg hc]
    exact ⟨fun _ hcc => absurd hcc hc, by rw [hp]; exact hc,
      by rw [hp]; exact jsTrim_idem _⟩

theorem c10_answer_nonempty_and_trimmed_witness :
    parseStreamedResponse "0:\" \"" = fallbackMessage :=
  (c10_answer_nonempty_and_trimmed "0:\" \"").1 (by decide) (by decide)
